import Mathlib

/-!
Shallow embedding of the desktop-docker-connector tunnel engine
(src/desktop/service.go) and proofs about its UDP/TUN packet handling.

Go byte slices and byte strings are modelled as lists of natural numbers
(one entry per byte); network addresses are modelled by their string form
(the engine itself only ever compares the string form `cli.String()`).
The engine's observable side effects (UDP sends on the primary socket,
sends on the accessor `expose` socket, TUN writes, peer-memo file writes,
config appends) are reified as an `Effect` trace.
-/

namespace DockerConnector

/-- A byte string: Go slices and buffers are modelled as lists of byte values. -/
abbrev Bytes := List Nat

/-- Byte view of a Go string literal (code points; identical to the UTF-8
bytes for the ASCII data used on this wire). -/
def strBytes (s : String) : Bytes := s.data.map Char.toNat

/-- One observable side effect of the engine loops in service.go:
a datagram written to the primary UDP socket (`conn.WriteToUDP`),
a datagram written to the accessor socket (`expose.WriteToUDP`),
a packet written to the TUN device (`iface.Write`),
a write of the peer-memo file (`ioutil.WriteFile(TmpPeer, ...)`),
or an append to the config hot-reload input (`appendConfig`). -/
inductive Effect where
  | udpSend (dst : String) (payload : Bytes)
  | exposeSend (dst : String) (payload : Bytes)
  | tunWrite (payload : Bytes)
  | memoWrite (content : String)
  | configAppend (payload : Bytes)
  deriving DecidableEq

/-- The runtime parameters of the engine that are fixed while the receive
loop runs: the `-cli` flag value `cliAddr`, the `bind` flag, whether the
TUN interface is available (`iface != nil`), the configured MTU, the
accessor session table (destination IP as a 32-bit value, as computed by
`toIntIP`, to the secondary peer address), and the current dynamic tables
passed to `sendControls` (`iptables` as an association list in map
iteration order, and the hosts blob). -/
structure Env where
  cliAddr : String
  bind : Bool
  ifaceAvail : Bool
  mtu : Nat
  sessions : Nat → Option String
  iptables : List (String × Bool)
  hosts : String

/-- The mutable engine state touched by the UDP receive loop in
service.go: the global `cli` pointer (the primary peer address the
TUN→UDP pump sends to; `none` models a nil pointer), the loop-local
`lastCli` change-detection string, and the content of the peer-memo
file (`none` if never written). -/
structure EngineState where
  cli : Option String
  lastCli : String
  memo : Option String
  deriving DecidableEq

/-- service.go lines 479-494: the `for k, v := range tables` loop of
`sendControls`, accumulating into the `reply` buffer: a `","` separator
when the buffer is nonempty, then `"connect "` or `"disconnect "`
according to the value, then the key. -/
def serializeTablesAux (acc : Bytes) : List (String × Bool) → Bytes
  | [] => acc
  | (k, v) :: rest =>
    serializeTablesAux
      ((if acc.length > 0 then acc ++ strBytes "," else acc) ++
        (if v then strBytes "connect " else strBytes "disconnect ") ++ strBytes k)
      rest

/-- Modelled from the spec: the function `loadHosts` is not among the
provided source files; per the spec ("After all intents, the raw
HostsBlob is appended verbatim") it appends the hosts blob bytes to the
reply buffer. -/
def loadHosts (reply : Bytes) (hosts : String) : Bytes := reply ++ strBytes hosts

/-- The full serialized control payload built in service.go lines
479-497: the comma-joined intents followed by the hosts blob. -/
def controlPayload (tables : List (String × Bool)) (hosts : String) : Bytes :=
  loadHosts (serializeTablesAux [] tables) hosts

/-- service.go lines 522-530: the chunk loop `for i := 0; i < l; i += MTU`
sending `tmp[i:min(i+MTU, l)]`, phrased as structural recursion (each
iteration consumes the next `min M (remaining)` bytes; the loop guard
`i < l` is the nonempty-remainder test). `fuel` bounds the number of
iterations; `chunkPayload` supplies `p.length`, which is enough whenever
`M ≥ 1`. -/
def chunkAux (M : Nat) : Nat → Bytes → List Bytes
  | 0, _ => []
  | _ + 1, [] => []
  | fuel + 1, a :: l => (a :: l).take M :: chunkAux M fuel ((a :: l).drop M)

/-- The list of payload chunks sent by the loop in service.go lines 522-530. -/
def chunkPayload (M : Nat) (p : Bytes) : List Bytes := chunkAux M p.length p

/-- The expected sizes of the successive chunks of a payload of length `L`
under MTU `M` (specification-side description used to state chunk-size
facts without materialising a payload). -/
def chunkSizes (M : Nat) : Nat → Nat → List Nat
  | 0, _ => []
  | fuel + 1, L => if L = 0 then [] else min M L :: chunkSizes M fuel (L - M)

/-- service.go lines 474-535, `sendControls`: serialize the tables and
hosts into `reply`; if the length `l` is positive, send a 3-byte header
`[1, byte(uint16(l) >> 8), byte(uint16(l) & 0xff)]` followed by the MTU
chunks of the payload, all to `cli`; if `l == 0` send nothing. The trace
is the success path (a failed send only truncates the trace in Go). -/
def sendControls (cliA : String) (M : Nat) (tables : List (String × Bool)) (hosts : String) :
    List Effect :=
  let reply := controlPayload tables hosts
  let l := reply.length
  if 0 < l then
    Effect.udpSend cliA [1, l % 65536 / 256, l % 65536 % 256] ::
      (chunkPayload M reply).map (fun c => Effect.udpSend cliA c)
  else []

/-- service.go lines 364-371: big-endian 32-bit read of four buffer bytes
(used with offsets 16,17,18,19, the IPv4 destination address). -/
def toIntIP (packet : Bytes) (o0 o1 o2 o3 : Nat) : Nat :=
  packet.getD o0 0 * 2 ^ 24 + packet.getD o1 0 * 2 ^ 16 +
    packet.getD o2 0 * 2 ^ 8 + packet.getD o3 0

/-- service.go lines 278-354: one iteration of the UDP receive loop.
`buf` is the full 2000-byte receive buffer (indices past `n` hold stale
bytes, exactly as in the Go code, which indexes `data[16..19]` without
checking `n`), `n` the number of bytes read, `sender` the source address
string. `conn.ReadFromUDP` first overwrites the global `cli` with the
sender; then the datagram is classified:
heartbeat (`data[0] == 0 && n == 1`): if the sender string differs from
`lastCli`, update `lastCli`, write the memo file when no `-cli` flag was
given, and run `sendControls`;
config push (`data[0] == 1 && n > 1`): append `data[1:n]` to the config;
otherwise route by `toIntIP data 16 17 18 19`: a session-table hit with
`n > 1` goes to the accessor socket, else the packet goes to the TUN when
`bind` is set and the interface is available, else it is dropped. -/
def recvStep (env : Env) (s : EngineState) (sender : String) (buf : Bytes) (n : Nat) :
    EngineState × List Effect :=
  let s1 : EngineState := { s with cli := some sender }
  if buf.getD 0 0 = 0 ∧ n = 1 then
    if s1.lastCli = sender then (s1, [])
    else
      let s2 : EngineState := { s1 with lastCli := sender }
      let ctl := sendControls sender env.mtu env.iptables env.hosts
      if env.cliAddr = "" then
        ({ s2 with memo := some sender }, Effect.memoWrite sender :: ctl)
      else (s2, ctl)
  else if buf.getD 0 0 = 1 ∧ 1 < n then
    (s1, [Effect.configAppend ((buf.take n).drop 1)])
  else
    let dest := toIntIP buf 16 17 18 19
    let fallback : List Effect :=
      if env.bind then
        (if env.ifaceAvail then [Effect.tunWrite (buf.take n)] else [])
      else []
    match env.sessions dest with
    | some sess => if 1 < n then (s1, [Effect.exposeSend sess (buf.take n)]) else (s1, fallback)
    | none => (s1, fallback)

/-- An IPv4 address as four octets. -/
structure IPv4 where
  a : Nat
  b : Nat
  c : Nat
  d : Nat
  deriving DecidableEq

/-- service.go lines 233-272: one iteration of the TUN read loop. A
packet of `n` bytes was read into `buf`; if bytes 16..19 equal the four
octets of `localIP` the packet is written back to the TUN (loopback);
otherwise it is sent to the current `cli` peer as one UDP datagram, or
dropped when `cli` is nil. -/
def tunStep (localIP : IPv4) (cliOpt : Option String) (buf : Bytes) (n : Nat) : List Effect :=
  if localIP.a = buf.getD 16 0 ∧ localIP.b = buf.getD 17 0 ∧
      localIP.c = buf.getD 18 0 ∧ localIP.d = buf.getD 19 0 then
    [Effect.tunWrite (buf.take n)]
  else
    match cliOpt with
    | none => []
    | some c => [Effect.udpSend c (buf.take n)]

/-- The 32-bit value of an IPv4 address. -/
def ipToNat (ip : IPv4) : Nat := ip.a * 2 ^ 24 + ip.b * 2 ^ 16 + ip.c * 2 ^ 8 + ip.d

/-- The IPv4 address of a 32-bit value. -/
def natToIP (x : Nat) : IPv4 :=
  ⟨x / 2 ^ 24 % 256, x / 2 ^ 16 % 256, x / 2 ^ 8 % 256, x % 256⟩

/-- Go `net.ParseCIDR` on an IPv4 CIDR string `A.B.C.D/maskLen`: the first
component is the address exactly as written (host bits preserved), the
second is the masked network address. -/
def parseCIDR (ip : IPv4) (maskLen : Nat) : IPv4 × IPv4 :=
  (ip, natToIP (ipToNat ip / 2 ^ (32 - maskLen) * 2 ^ (32 - maskLen)))

/-- service.go lines 140-144: `peer, subnet, _ = net.ParseCIDR(addr)`,
then `copy(localIP, peer.To4()); localIP[3]++` — the peer IP is the first
component of ParseCIDR and the local IP is the peer IP with its last
octet incremented as a byte (wrapping at 256). Returns (peerIP, localIP). -/
def deriveIPs (ip : IPv4) (maskLen : Nat) : IPv4 × IPv4 :=
  let peer := (parseCIDR ip maskLen).1
  (peer, { peer with d := (peer.d + 1) % 256 })

/-- Modelled from the spec: "PeerIP is the network's first usable host
(CIDR host portion zero, last octet = .1)" — the masked network address
with its last octet incremented. Stated only to compare the spec's
description with what `deriveIPs` actually computes. -/
def specPeerIP (ip : IPv4) (maskLen : Nat) : IPv4 :=
  let nw := (parseCIDR ip maskLen).2
  { nw with d := nw.d + 1 }

/-- The 16-bit length announced by the first (header) datagram of a
control-frame trace: `some (h1 * 256 + h2)` when the trace starts with a
3-byte datagram tagged `1`, else `none`. -/
def headerValue : List Effect → Option Nat
  | Effect.udpSend _ [t, h1, h2] :: _ => if t = 1 then some (h1 * 256 + h2) else none
  | _ => none

/-! ### Helper lemmas about the chunk loop -/

/-- The concatenation of the chunks is the original payload. -/
theorem chunkAux_flatten (M : Nat) (hM : 1 ≤ M) :
    ∀ (fuel : Nat) (p : Bytes), p.length ≤ fuel → (chunkAux M fuel p).flatten = p
  | 0, [], _ => rfl
  | 0, _ :: _, h => absurd h (by simp)
  | _ + 1, [], _ => rfl
  | fuel + 1, a :: l, h => by
    simp only [chunkAux, List.flatten_cons]
    rw [chunkAux_flatten M hM fuel ((a :: l).drop M)
      (by simp only [List.length_drop, List.length_cons] at h ⊢; omega)]
    exact List.take_append_drop M (a :: l)

/-- Every chunk has at most `M` bytes. -/
theorem chunkAux_chunk_le (M : Nat) :
    ∀ (fuel : Nat) (p : Bytes), ∀ c ∈ chunkAux M fuel p, c.length ≤ M
  | 0, _, c, hc => absurd hc (by simp [chunkAux])
  | _ + 1, [], c, hc => absurd hc (by simp [chunkAux])
  | fuel + 1, a :: l, c, hc => by
    simp only [chunkAux, List.mem_cons] at hc
    rcases hc with hc | hc
    · subst hc
      simp only [List.length_take, List.length_cons]
      omega
    · exact chunkAux_chunk_le M fuel ((a :: l).drop M) c hc

/-- Arithmetic step of the chunk count: consuming one chunk of `M` bytes
from a nonempty remainder of `L` bytes. -/
theorem ceil_div_step (M L : Nat) (hM : 1 ≤ M) (hL : 1 ≤ L) :
    (L - M + M - 1) / M + 1 = (L + M - 1) / M := by
  rcases Nat.lt_or_ge L M with hlt | hge
  · have e1 : L - M + M - 1 = M - 1 := by omega
    have e2 : L + M - 1 = (L - 1) + M := by omega
    rw [e1, e2, Nat.add_div_right _ (by omega), Nat.div_eq_of_lt (by omega : M - 1 < M),
      Nat.div_eq_of_lt (by omega : L - 1 < M)]
  · have e1 : L - M + M - 1 = L - 1 := by omega
    have e2 : L + M - 1 = (L - 1) + M := by omega
    rw [e1, e2, Nat.add_div_right _ (by omega)]

/-- The number of chunks is `⌈L / M⌉`. -/
theorem chunkAux_count (M : Nat) (hM : 1 ≤ M) :
    ∀ (fuel : Nat) (p : Bytes), p.length ≤ fuel →
      (chunkAux M fuel p).length = (p.length + M - 1) / M
  | 0, [], _ => by simp [chunkAux, Nat.div_eq_of_lt (by omega : M - 1 < M)]
  | 0, _ :: _, h => absurd h (by simp)
  | _ + 1, [], _ => by simp [chunkAux, Nat.div_eq_of_lt (by omega : M - 1 < M)]
  | fuel + 1, a :: l, h => by
    have hrec := chunkAux_count M hM fuel ((a :: l).drop M)
      (by simp only [List.length_drop, List.length_cons] at h ⊢; omega)
    simp only [chunkAux, List.length_cons, hrec, List.length_drop]
    exact ceil_div_step M (a :: l).length hM (by simp)

/-- The sizes of the chunks are as described by `chunkSizes`. -/
theorem chunkAux_map_length (M : Nat) :
    ∀ (fuel : Nat) (p : Bytes),
      (chunkAux M fuel p).map List.length = chunkSizes M fuel p.length
  | 0, _ => rfl
  | _ + 1, [] => by simp [chunkAux, chunkSizes]
  | fuel + 1, a :: l => by
    simp only [chunkAux, List.map_cons, List.length_take,
      chunkAux_map_length M fuel ((a :: l).drop M), List.length_drop, chunkSizes]
    simp

/-! ### Claim theorems -/

/-- C2: for every packet read from the TUN whose destination IPv4 (bytes
16..19) does not equal LocalIP, if the primary peer is set to `P` then
exactly one UDP datagram with bytes identical to the packet is sent to
`P`; if the primary peer is unset the packet is dropped and nothing is
sent. -/
theorem tun_forward_to_peer (ip : IPv4) (cliOpt : Option String) (buf : Bytes) (n : Nat)
    (hne : ¬(ip.a = buf.getD 16 0 ∧ ip.b = buf.getD 17 0 ∧
      ip.c = buf.getD 18 0 ∧ ip.d = buf.getD 19 0)) :
    (∀ P, cliOpt = some P → tunStep ip cliOpt buf n = [Effect.udpSend P (buf.take n)]) ∧
    (cliOpt = none → tunStep ip cliOpt buf n = []) := by
  constructor
  · intro P hP
    subst hP
    unfold tunStep
    rw [if_neg hne]
  · intro hP
    subst hP
    unfold tunStep
    rw [if_neg hne]

/-- Witness for C2: a TUN packet for 172.17.0.2 with LocalIP
192.168.251.2 is forwarded unchanged to the peer when one is set, and
dropped when none is set. -/
theorem tun_forward_to_peer_witness :
    tunStep ⟨192, 168, 251, 2⟩ (some "10.0.0.5:40000")
        [69, 0, 0, 20, 0, 0, 0, 0, 64, 6, 0, 0, 192, 168, 251, 2, 172, 17, 0, 2] 20 =
      [Effect.udpSend "10.0.0.5:40000"
        [69, 0, 0, 20, 0, 0, 0, 0, 64, 6, 0, 0, 192, 168, 251, 2, 172, 17, 0, 2]] ∧
    tunStep ⟨192, 168, 251, 2⟩ none
        [69, 0, 0, 20, 0, 0, 0, 0, 64, 6, 0, 0, 192, 168, 251, 2, 172, 17, 0, 2] 20 = [] := by
  have h1 := tun_forward_to_peer ⟨192, 168, 251, 2⟩ (some "10.0.0.5:40000")
    [69, 0, 0, 20, 0, 0, 0, 0, 64, 6, 0, 0, 192, 168, 251, 2, 172, 17, 0, 2] 20 (by decide)
  have h2 := tun_forward_to_peer ⟨192, 168, 251, 2⟩ none
    [69, 0, 0, 20, 0, 0, 0, 0, 64, 6, 0, 0, 192, 168, 251, 2, 172, 17, 0, 2] 20 (by decide)
  exact ⟨(h1.1 "10.0.0.5:40000" rfl).trans (by decide), h2.2 rfl⟩

/-- C3: every packet read from the TUN whose destination IPv4 (bytes
16..19) equals LocalIP is written back into the TUN and never sent over
UDP, regardless of whether a primary peer is set. -/
theorem tun_local_loopback (ip : IPv4) (cliOpt : Option String) (buf : Bytes) (n : Nat)
    (heq : ip.a = buf.getD 16 0 ∧ ip.b = buf.getD 17 0 ∧
      ip.c = buf.getD 18 0 ∧ ip.d = buf.getD 19 0) :
    tunStep ip cliOpt buf n = [Effect.tunWrite (buf.take n)] ∧
    ∀ dst p, Effect.udpSend dst p ∉ tunStep ip cliOpt buf n := by
  have h1 : tunStep ip cliOpt buf n = [Effect.tunWrite (buf.take n)] := by
    unfold tunStep
    rw [if_pos heq]
  refine ⟨h1, fun dst p => ?_⟩
  rw [h1]
  simp

/-- Witness for C3: a TUN packet addressed to LocalIP 192.168.251.2 is
re-injected into the TUN even though a peer is set. -/
theorem tun_local_loopback_witness :
    tunStep ⟨192, 168, 251, 2⟩ (some "10.0.0.5:40000")
        [69, 0, 0, 20, 0, 0, 0, 0, 64, 6, 0, 0, 10, 0, 0, 1, 192, 168, 251, 2] 20 =
      [Effect.tunWrite
        [69, 0, 0, 20, 0, 0, 0, 0, 64, 6, 0, 0, 10, 0, 0, 1, 192, 168, 251, 2]] := by
  have h := tun_local_loopback ⟨192, 168, 251, 2⟩ (some "10.0.0.5:40000")
    [69, 0, 0, 20, 0, 0, 0, 0, 64, 6, 0, 0, 10, 0, 0, 1, 192, 168, 251, 2] 20 (by decide)
  exact h.1.trans (by decide)

/-- Counterexample to C8 as stated: for the configured overlay address
192.168.251.7/24 the code's PeerIP is 192.168.251.7 (the configured
address, host bits preserved by net.ParseCIDR), not the network's first
usable host 192.168.251.1 claimed by the spec. -/
theorem peer_ip_not_first_host_cex :
    (deriveIPs ⟨192, 168, 251, 7⟩ 24).1 = ⟨192, 168, 251, 7⟩ ∧
    specPeerIP ⟨192, 168, 251, 7⟩ 24 = ⟨192, 168, 251, 1⟩ ∧
    (deriveIPs ⟨192, 168, 251, 7⟩ 24).1 ≠ specPeerIP ⟨192, 168, 251, 7⟩ 24 := by
  decide

/-- C8 amended: PeerIP is the configured address itself (host bits
preserved, so it coincides with the network's `.1` exactly when the
configured address is that `.1` host), and LocalIP equals PeerIP with the
last octet incremented modulo 256. -/
theorem derive_ips_from_addr (ip : IPv4) (maskLen : Nat) :
    (deriveIPs ip maskLen).1 = ip ∧
    (deriveIPs ip maskLen).2 = { ip with d := (ip.d + 1) % 256 } ∧
    ((deriveIPs ip maskLen).1 = specPeerIP ip maskLen ↔ ip = specPeerIP ip maskLen) := by
  exact ⟨rfl, rfl, Iff.rfl⟩

/-- C5: for every control frame with serialized payload of length `L > 0`
and MTU `M ≥ 1`, sendControls sends one 3-byte header datagram
`[0x01, (L >> 8) & 0xFF, L & 0xFF]` followed by `⌈L / M⌉` payload
datagrams in order, each of at most `M` bytes, whose in-order
concatenation is the payload, with the chunk sizes described by
`chunkSizes` (in particular 1400, 1400, 400 for `L = 3200`, `M = 1400`,
checked in the witness). -/
theorem sendControls_fragmentation (cliA : String) (M : Nat)
    (tables : List (String × Bool)) (hosts : String)
    (hM : 1 ≤ M) (hL : 0 < (controlPayload tables hosts).length) :
    sendControls cliA M tables hosts =
      Effect.udpSend cliA
          [1, (controlPayload tables hosts).length / 256 % 256,
            (controlPayload tables hosts).length % 256] ::
        (chunkPayload M (controlPayload tables hosts)).map
          (fun c => Effect.udpSend cliA c) ∧
    (chunkPayload M (controlPayload tables hosts)).length =
      ((controlPayload tables hosts).length + M - 1) / M ∧
    (∀ c ∈ chunkPayload M (controlPayload tables hosts), c.length ≤ M) ∧
    (chunkPayload M (controlPayload tables hosts)).flatten = controlPayload tables hosts ∧
    (chunkPayload M (controlPayload tables hosts)).map List.length =
      chunkSizes M (controlPayload tables hosts).length
        (controlPayload tables hosts).length := by
  refine ⟨?_, chunkAux_count M hM _ _ le_rfl, chunkAux_chunk_le M _ _,
    chunkAux_flatten M hM _ _ le_rfl, chunkAux_map_length M _ _⟩
  unfold sendControls
  rw [if_pos hL]
  have e1 : (controlPayload tables hosts).length % 65536 / 256 =
      (controlPayload tables hosts).length / 256 % 256 := by omega
  have e2 : (controlPayload tables hosts).length % 65536 % 256 =
      (controlPayload tables hosts).length % 256 := by omega
  rw [e1, e2]

/-- Witness for C5: a 3200-byte payload (empty iptables table, 3200-byte
hosts blob) with MTU 1400 is sent as chunks of sizes 1400, 1400, 400. -/
theorem sendControls_fragmentation_witness :
    (chunkPayload 1400 (controlPayload [] (String.mk (List.replicate 3200 'a')))).map
        List.length = [1400, 1400, 400] ∧
    (chunkPayload 1400 (controlPayload [] (String.mk (List.replicate 3200 'a')))).length =
      3 := by
  have hcp : controlPayload [] (String.mk (List.replicate 3200 'a')) =
      (List.replicate 3200 'a').map Char.toNat := rfl
  have hlen : (controlPayload [] (String.mk (List.replicate 3200 'a'))).length = 3200 := by
    rw [hcp, List.length_map, List.length_replicate]
  have h := sendControls_fragmentation "10.0.0.5:40000" 1400 []
    (String.mk (List.replicate 3200 'a')) (by omega) (by rw [hlen]; omega)
  constructor
  · rw [h.2.2.2.2, hlen]
    decide
  · rw [h.2.1, hlen]

/-- C6: when the serialized control payload is empty, sendControls sends
no datagrams at all, and the heartbeat path (including the very first
heartbeat from a new peer) emits no UDP datagram. -/
theorem sendControls_empty_payload (env : Env) (cliA sender : String) (s : EngineState)
    (hL : controlPayload env.iptables env.hosts = []) :
    sendControls cliA env.mtu env.iptables env.hosts = [] ∧
    ∀ e ∈ (recvStep env s sender [0] 1).2, ∀ dst p, e ≠ Effect.udpSend dst p := by
  have hs : ∀ (c : String) (M : Nat), sendControls c M env.iptables env.hosts = [] := by
    intro c M
    unfold sendControls
    rw [hL]
    simp
  refine ⟨hs cliA env.mtu, ?_⟩
  intro e he dst p
  unfold recvStep at he
  simp only [hs] at he
  by_cases hc : s.lastCli = sender
  · simp [hc] at he
  · by_cases ha : env.cliAddr = ""
    · simp [hc, ha] at he
      subst he
      simp
    · simp [hc, ha] at he

/-- Witness for C6: with an empty iptables table and empty hosts blob the
control payload is empty and sendControls sends nothing. -/
theorem sendControls_empty_payload_witness :
    sendControls "10.0.0.5:40000" 1400 [] "" = [] := by
  exact (sendControls_empty_payload ⟨"", true, true, 1400, fun _ => none, [], ""⟩
    "10.0.0.5:40000" "10.0.0.5:40000" ⟨none, "", none⟩ rfl).1

/-- C10: the 16-bit length field of the control-frame header announces
`L % 65536` while the payload datagrams carry all `L` bytes; the
announced length equals `L` exactly for `L < 65536` and understates the
bytes sent for `L ≥ 65536`. -/
theorem control_length_wraparound (cliA : String) (M : Nat)
    (tables : List (String × Bool)) (hosts : String)
    (hM : 1 ≤ M) (hL : 0 < (controlPayload tables hosts).length) :
    headerValue (sendControls cliA M tables hosts) =
      some ((controlPayload tables hosts).length % 65536) ∧
    ((chunkPayload M (controlPayload tables hosts)).map List.length).sum =
      (controlPayload tables hosts).length ∧
    ((controlPayload tables hosts).length < 65536 →
      (controlPayload tables hosts).length % 65536 =
        (controlPayload tables hosts).length) ∧
    (65536 ≤ (controlPayload tables hosts).length →
      (controlPayload tables hosts).length % 65536 <
        (controlPayload tables hosts).length) := by
  refine ⟨?_, ?_, fun h => Nat.mod_eq_of_lt h, ?_⟩
  · unfold sendControls
    rw [if_pos hL]
    show (if (1 : Nat) = 1 then
        some ((controlPayload tables hosts).length % 65536 / 256 * 256 +
          (controlPayload tables hosts).length % 65536 % 256)
      else none) = some ((controlPayload tables hosts).length % 65536)
    rw [if_pos rfl]
    congr 1
    omega
  · rw [← List.length_flatten]
    unfold chunkPayload
    rw [chunkAux_flatten M hM _ _ le_rfl]
  · intro h
    omega

/-- Witness for C10: a 65537-byte payload is announced as length 1 in the
header, understating the bytes sent. -/
theorem control_length_wraparound_witness :
    headerValue (sendControls "10.0.0.5:40000" 1400 []
        (String.mk (List.replicate 65537 'a'))) = some 1 ∧
    65536 ≤ (controlPayload [] (String.mk (List.replicate 65537 'a'))).length ∧
    (controlPayload [] (String.mk (List.replicate 65537 'a'))).length % 65536 <
      (controlPayload [] (String.mk (List.replicate 65537 'a'))).length := by
  have hcp : controlPayload [] (String.mk (List.replicate 65537 'a')) =
      (List.replicate 65537 'a').map Char.toNat := rfl
  have hlen : (controlPayload [] (String.mk (List.replicate 65537 'a'))).length = 65537 := by
    rw [hcp, List.length_map, List.length_replicate]
  have h := control_length_wraparound "10.0.0.5:40000" 1400 []
    (String.mk (List.replicate 65537 'a')) (by omega) (by rw [hlen]; omega)
  refine ⟨?_, by rw [hlen]; omega, h.2.2.2 (by rw [hlen]; omega)⟩
  rw [h.1, hlen]

/-- C1: for every UDP datagram with length 1 and first byte 0, the stored
peer identity `lastCli` is updated iff the sender's address string
differs from the current `lastCli`, and every such update (including the
first) triggers the sendControls push; a heartbeat from the unchanged
peer (with the `cli` pointer already at that peer) changes no state and
sends nothing. -/
theorem heartbeat_peer_update (env : Env) (s : EngineState) (sender : String)
    (buf : Bytes) (n : Nat) (hb : buf.getD 0 0 = 0 ∧ n = 1) :
    (recvStep env s sender buf n).1.lastCli = sender ∧
    (sender ≠ s.lastCli →
      (recvStep env s sender buf n).1.lastCli ≠ s.lastCli ∧
      (recvStep env s sender buf n).2 =
        (if env.cliAddr = "" then [Effect.memoWrite sender] else []) ++
          sendControls sender env.mtu env.iptables env.hosts) ∧
    (sender = s.lastCli →
      (recvStep env s sender buf n).2 = [] ∧
      (recvStep env s sender buf n).1.lastCli = s.lastCli ∧
      (recvStep env s sender buf n).1.memo = s.memo ∧
      (s.cli = some sender → recvStep env s sender buf n = (s, []))) := by
  obtain ⟨h0, hn⟩ := hb
  unfold recvStep
  rw [if_pos ⟨h0, hn⟩]
  by_cases hc : s.lastCli = sender
  · rw [if_pos (show ({ s with cli := some sender } : EngineState).lastCli = sender from hc)]
    refine ⟨hc, fun hne => absurd hc.symm hne, fun _ => ⟨rfl, rfl, rfl, fun hcli => ?_⟩⟩
    rw [← hcli]
  · rw [if_neg (show ¬({ s with cli := some sender } : EngineState).lastCli = sender from hc)]
    by_cases ha : env.cliAddr = ""
    · rw [if_pos ha, if_pos ha]
      exact ⟨rfl, fun hne => ⟨fun hl => hc hl.symm, rfl⟩, fun heq => absurd heq.symm hc⟩
    · rw [if_neg ha, if_neg ha]
      exact ⟨rfl, fun hne => ⟨fun hl => hc hl.symm, rfl⟩, fun heq => absurd heq.symm hc⟩

/-- Witness for C1: a heartbeat from a new address updates the peer and
triggers the (here empty-payload) control push plus the memo write; a
heartbeat from the unchanged peer leaves the state and effect trace
empty. -/
theorem heartbeat_peer_update_witness :
    (recvStep ⟨"", true, true, 1400, fun _ => none, [], ""⟩
        ⟨some "10.0.0.5:40000", "10.0.0.5:40000", none⟩ "10.0.0.6:41000" [0] 1).2 =
      [Effect.memoWrite "10.0.0.6:41000"] ∧
    (recvStep ⟨"", true, true, 1400, fun _ => none, [], ""⟩
        ⟨some "10.0.0.5:40000", "10.0.0.5:40000", none⟩ "10.0.0.6:41000" [0] 1).1.lastCli =
      "10.0.0.6:41000" ∧
    recvStep ⟨"", true, true, 1400, fun _ => none, [], ""⟩
        ⟨some "10.0.0.5:40000", "10.0.0.5:40000", none⟩ "10.0.0.5:40000" [0] 1 =
      (⟨some "10.0.0.5:40000", "10.0.0.5:40000", none⟩, []) := by
  have h1 := heartbeat_peer_update ⟨"", true, true, 1400, fun _ => none, [], ""⟩
    ⟨some "10.0.0.5:40000", "10.0.0.5:40000", none⟩ "10.0.0.6:41000" [0] 1 ⟨rfl, rfl⟩
  have h2 := heartbeat_peer_update ⟨"", true, true, 1400, fun _ => none, [], ""⟩
    ⟨some "10.0.0.5:40000", "10.0.0.5:40000", none⟩ "10.0.0.5:40000" [0] 1 ⟨rfl, rfl⟩
  refine ⟨?_, h1.1, (h2.2.2 rfl).2.2.2 rfl⟩
  rw [(h1.2.1 (by decide)).2]
  decide

/-- C9: on a heartbeat that changes the peer, the new peer's address
string is written to the memo file iff no fixed `-cli` address was
configured; with a nonempty `cliAddr` the memo file is unchanged, and in
either case the rest of the heartbeat path (the `lastCli` update and the
control push) is the same. -/
theorem memo_persistence (env : Env) (s : EngineState) (sender : String)
    (buf : Bytes) (n : Nat) (hb : buf.getD 0 0 = 0 ∧ n = 1)
    (hch : sender ≠ s.lastCli) :
    (recvStep env s sender buf n).1.lastCli = sender ∧
    (env.cliAddr = "" →
      (recvStep env s sender buf n).2 =
        Effect.memoWrite sender :: sendControls sender env.mtu env.iptables env.hosts ∧
      (recvStep env s sender buf n).1.memo = some sender) ∧
    (env.cliAddr ≠ "" →
      (recvStep env s sender buf n).2 =
        sendControls sender env.mtu env.iptables env.hosts ∧
      (recvStep env s sender buf n).1.memo = s.memo) := by
  obtain ⟨h0, hn⟩ := hb
  unfold recvStep
  rw [if_pos ⟨h0, hn⟩]
  rw [if_neg (show ¬({ s with cli := some sender } : EngineState).lastCli = sender from
    fun hl => hch hl.symm)]
  by_cases ha : env.cliAddr = ""
  · rw [if_pos ha]
    exact ⟨rfl, fun _ => ⟨rfl, rfl⟩, fun hne => absurd ha hne⟩
  · rw [if_neg ha]
    exact ⟨rfl, fun heq => absurd heq ha, fun _ => ⟨rfl, rfl⟩⟩

/-- Witness for C9: with a configured fixed client address the memo file
is left unchanged by a peer change, and only the control push remains. -/
theorem memo_persistence_witness :
    (recvStep ⟨"10.0.0.7:42000", true, true, 1400, fun _ => none, [], ""⟩
        ⟨none, "", none⟩ "10.0.0.6:41000" [0] 1).2 = [] ∧
    (recvStep ⟨"10.0.0.7:42000", true, true, 1400, fun _ => none, [], ""⟩
        ⟨none, "", none⟩ "10.0.0.6:41000" [0] 1).1.memo = none ∧
    (recvStep ⟨"", true, true, 1400, fun _ => none, [], ""⟩
        ⟨none, "", none⟩ "10.0.0.6:41000" [0] 1).1.memo = some "10.0.0.6:41000" := by
  have h1 := memo_persistence ⟨"10.0.0.7:42000", true, true, 1400, fun _ => none, [], ""⟩
    ⟨none, "", none⟩ "10.0.0.6:41000" [0] 1 ⟨rfl, rfl⟩ (by decide)
  have h2 := memo_persistence ⟨"", true, true, 1400, fun _ => none, [], ""⟩
    ⟨none, "", none⟩ "10.0.0.6:41000" [0] 1 ⟨rfl, rfl⟩ (by decide)
  have ha := h1.2.2 (by decide)
  refine ⟨?_, ha.2, (h2.2.1 rfl).2⟩
  rw [ha.1]
  decide

/-- Counterexample to C7 as stated: a config-push datagram `[0x01, 0x61]`
arriving from 10.0.0.6:41000 while the primary peer is 10.0.0.5:40000
does append the payload, but the primary peer pointer `cli` is
overwritten with the sender by the `ReadFromUDP` that received the
datagram, so the primary peer does not stay unchanged. -/
theorem config_push_peer_hijack_cex :
    (recvStep ⟨"", true, true, 1400, fun _ => none, [], ""⟩
        ⟨some "10.0.0.5:40000", "10.0.0.5:40000", none⟩ "10.0.0.6:41000" [1, 97] 2).2 =
      [Effect.configAppend [97]] ∧
    (recvStep ⟨"", true, true, 1400, fun _ => none, [], ""⟩
        ⟨some "10.0.0.5:40000", "10.0.0.5:40000", none⟩ "10.0.0.6:41000" [1, 97] 2).1.cli =
      some "10.0.0.6:41000" ∧
    some "10.0.0.6:41000" ≠
      (⟨some "10.0.0.5:40000", "10.0.0.5:40000", none⟩ : EngineState).cli := by
  decide

/-- C7 amended: for every inbound UDP datagram with first byte 0x01 and
length `n > 1`, the bytes `data[1:n]` are appended verbatim via
appendConfig; `lastCli` and the memo file are unchanged and nothing is
written to the TUN or to a UDP socket for that datagram; the `cli`
pointer (the primary peer used by the TUN pump) is set to the datagram's
sender, as it is for every received datagram. -/
theorem config_push_effects (env : Env) (s : EngineState) (sender : String)
    (buf : Bytes) (n : Nat) (h0 : buf.getD 0 0 = 1) (hn : 1 < n) :
    recvStep env s sender buf n =
      ({ s with cli := some sender }, [Effect.configAppend ((buf.take n).drop 1)]) := by
  unfold recvStep
  rw [if_neg (by omega : ¬(buf.getD 0 0 = 0 ∧ n = 1)), if_pos ⟨h0, hn⟩]

/-- Witness for C7's amended claim: a concrete config push appends its
payload and only moves the `cli` pointer. -/
theorem config_push_effects_witness :
    recvStep ⟨"", true, true, 1400, fun _ => none, [], ""⟩ ⟨none, "", none⟩
        "10.0.0.5:40000" [1, 97, 98] 3 =
      (⟨some "10.0.0.5:40000", "", none⟩, [Effect.configAppend [97, 98]]) := by
  have h := config_push_effects ⟨"", true, true, 1400, fun _ => none, [], ""⟩
    ⟨none, "", none⟩ "10.0.0.5:40000" [1, 97, 98] 3 rfl (by omega)
  rw [h]
  decide

/-- Counterexample to C4 as stated: a 1-byte datagram with first byte 2
(neither heartbeat nor control push) whose buffer bytes 16..19 name a
destination that is in the session table is written to the TUN, not to
the mapped secondary address — the session branch additionally requires
`n > 1`. -/
theorem session_length_bypass_cex :
    (Env.sessions ⟨"", true, true, 1400,
        (fun d => if d = 16909060 then some "127.0.0.1:9000" else none), [], ""⟩
      (toIntIP [2, 0, 0, 0, 0, 0, 0, 0, 0, 0, 0, 0, 0, 0, 0, 0, 1, 2, 3, 4] 16 17 18 19) =
      some "127.0.0.1:9000") ∧
    (recvStep ⟨"", true, true, 1400,
        (fun d => if d = 16909060 then some "127.0.0.1:9000" else none), [], ""⟩
      ⟨none, "", none⟩ "9.9.9.9:1"
      [2, 0, 0, 0, 0, 0, 0, 0, 0, 0, 0, 0, 0, 0, 0, 0, 1, 2, 3, 4] 1).2 =
      [Effect.tunWrite [2]] := by
  decide

/-- C4 amended: every inbound datagram that is neither a heartbeat nor a
control push is routed by the destination at buffer bytes 16..19: if the
destination is in the session table and the datagram length exceeds 1 it
is written to the mapped secondary UDP address (and not to the TUN);
otherwise (no session entry, or a length-1 datagram) it is written to the
TUN when `bind` is set and the interface is available, and dropped
otherwise. -/
theorem data_sink_selection (env : Env) (s : EngineState) (sender : String)
    (buf : Bytes) (n : Nat)
    (hnh : ¬(buf.getD 0 0 = 0 ∧ n = 1)) (hnc : ¬(buf.getD 0 0 = 1 ∧ 1 < n)) :
    (∀ a, env.sessions (toIntIP buf 16 17 18 19) = some a → 1 < n →
      (recvStep env s sender buf n).2 = [Effect.exposeSend a (buf.take n)]) ∧
    ((env.sessions (toIntIP buf 16 17 18 19) = none ∨ n ≤ 1) →
      (recvStep env s sender buf n).2 =
        (if env.bind then
          (if env.ifaceAvail then [Effect.tunWrite (buf.take n)] else [])
        else [])) := by
  unfold recvStep
  rw [if_neg hnh, if_neg hnc]
  constructor
  · intro a ha hn
    simp only [ha, if_pos hn]
  · intro hcase
    rcases hcase with ha | hn
    · simp only [ha]
    · cases hsess : env.sessions (toIntIP buf 16 17 18 19) with
      | none => simp only [hsess]
      | some a => simp only [hsess, if_neg (by omega : ¬1 < n)]

/-- Witness for C4's amended claim: a 20-byte datagram with destination
1.2.3.4 in the session table is redirected to 127.0.0.1:9000. -/
theorem data_sink_selection_witness :
    (recvStep ⟨"", true, true, 1400,
        (fun d => if d = 16909060 then some "127.0.0.1:9000" else none), [], ""⟩
      ⟨none, "", none⟩ "9.9.9.9:1"
      [69, 0, 0, 20, 0, 0, 0, 0, 64, 6, 0, 0, 10, 0, 0, 1, 1, 2, 3, 4] 20).2 =
      [Effect.exposeSend "127.0.0.1:9000"
        [69, 0, 0, 20, 0, 0, 0, 0, 64, 6, 0, 0, 10, 0, 0, 1, 1, 2, 3, 4]] := by
  have h := data_sink_selection ⟨"", true, true, 1400,
      (fun d => if d = 16909060 then some "127.0.0.1:9000" else none), [], ""⟩
    ⟨none, "", none⟩ "9.9.9.9:1"
    [69, 0, 0, 20, 0, 0, 0, 0, 64, 6, 0, 0, 10, 0, 0, 1, 1, 2, 3, 4] 20
    (by decide) (by decide)
  rw [h.1 "127.0.0.1:9000" (by decide) (by omega)]
  decide

end DockerConnector
